import Mathlib

/-!
Verification of the `biquad-filter` crate (src/lib.rs): a second-order IIR
filter whose coefficients come from the Audio EQ Cookbook bilinear-transform
design equations.

Modelling conventions.  Floating-point samples, coefficients and design
parameters are modelled as real numbers.  The `F::from(...)` narrowing steps
of the source are total on the reals and are modelled as the identity, so the
`Fatal` conversion error is unreachable in the model (the spec notes it is
practically unreachable for IEEE types).  Rust slices become lists; the
mutating methods become state-passing functions returning the post-state.
-/

namespace BiquadFilter

/-- The error enumeration `BiquadError` of src/lib.rs (the `Nyqist` spelling
is the source's). -/
inductive BiquadError where
  | NoSampleRate
  | FrequencyOverNyqist
  | FrequencyTooLow
  | NegativeQ
  | Fatal
  deriving DecidableEq

/-- The nine filter responses of `FilterType` in src/lib.rs. -/
inductive FilterType where
  | Lowpass
  | Highpass
  | Bandpass1
  | Bandpass2
  | Notch
  | Allpass
  | Peak
  | Lowshelf
  | Highshelf
  deriving DecidableEq

/-- `Coefficients<F>` of src/lib.rs: the stored sample rate plus the six
biquad coefficients. -/
structure Coefficients where
  sample_rate : ℝ
  a0 : ℝ
  a1 : ℝ
  a2 : ℝ
  b0 : ℝ
  b1 : ℝ
  b2 : ℝ

/-- `Coefficients::default()` (derived): every field zero. -/
def Coefficients.default : Coefficients :=
  { sample_rate := 0, a0 := 0, a1 := 0, a2 := 0, b0 := 0, b1 := 0, b2 := 0 }

/-- `Coefficients::set_sample_rate` of src/lib.rs: stores the integer rate as
the working scalar.  On the reals the conversion is total, so the `Fatal`
branch of the source is unreachable. -/
def Coefficients.set_sample_rate (c : Coefficients) (sample_rate : ℕ) :
    Except BiquadError Coefficients :=
  .ok { c with sample_rate := (sample_rate : ℝ) }

/-- `Coefficients::set` of src/lib.rs (lines 48-158): the four validation
checks in source order, then the intermediate quantities `a` (amplitude),
`omega`, `sin`, `cos`, `alpha = sin / 2 * q`, `beta`, then one of nine
coefficient branches.  The successful result carries the updated record
(the source mutates only the six coefficient fields). -/
noncomputable def Coefficients.set (c : Coefficients) (filter_type : FilterType)
    (frequency gain_db q : ℝ) : Except BiquadError Coefficients :=
  if c.sample_rate = 0 then .error .NoSampleRate
  else if 2 * frequency > c.sample_rate then .error .FrequencyOverNyqist
  else if frequency < 1 then .error .FrequencyTooLow
  else if q < 0 then .error .NegativeQ
  else
    let a : ℝ := (10 : ℝ) ^ (gain_db / 40)
    let omega : ℝ := 2 * Real.pi * frequency / c.sample_rate
    let sin : ℝ := Real.sin omega
    let cos : ℝ := Real.cos omega
    let alpha : ℝ := sin / 2 * q
    let beta : ℝ := 2 * Real.sqrt a * alpha
    match filter_type with
    | .Lowpass => .ok { c with
        b0 := (1 - cos) / 2
        b1 := 1 - cos
        b2 := (1 - cos) / 2
        a0 := 1 + alpha
        a1 := -2 * cos
        a2 := 1 - alpha }
    | .Highpass => .ok { c with
        b0 := (1 + cos) / 2
        b1 := -(1 + cos)
        b2 := (1 + cos) / 2
        a0 := 1 + alpha
        a1 := -2 * cos
        a2 := 1 - alpha }
    | .Bandpass1 => .ok { c with
        b0 := q * alpha
        b1 := 0
        b2 := -q * alpha
        a0 := 1 + alpha
        a1 := -2 * cos
        a2 := 1 - alpha }
    | .Bandpass2 => .ok { c with
        b0 := alpha
        b1 := 0
        b2 := -alpha
        a0 := 1 + alpha
        a1 := -2 * cos
        a2 := 1 - alpha }
    | .Notch => .ok { c with
        b0 := 1
        b1 := -2 * cos
        b2 := 1
        a0 := 1 + alpha
        a1 := -2 * cos
        a2 := 1 - alpha }
    | .Allpass => .ok { c with
        b0 := 1 - alpha
        b1 := -2 * cos
        b2 := 1 + alpha
        a0 := 1 + alpha
        a1 := -2 * cos
        a2 := 1 - alpha }
    | .Peak => .ok { c with
        b0 := 1 + alpha * a
        b1 := -2 * cos
        b2 := 1 - alpha * a
        a0 := 1 + alpha / a
        a1 := -2 * cos
        a2 := 1 - alpha / a }
    | .Lowshelf => .ok { c with
        b0 := a * ((a + 1) - (a - 1) * cos + beta)
        b1 := 2 * a * ((a - 1) - (a + 1) * cos)
        b2 := a * ((a + 1) - (a - 1) * cos - beta)
        a0 := (a + 1) + (a - 1) * cos + beta
        a1 := -2 * ((a - 1) + (a + 1) * cos)
        a2 := (a + 1) + (a - 1) * cos - beta }
    | .Highshelf => .ok { c with
        b0 := a * ((a + 1) + (a - 1) * cos + beta)
        b1 := -2 * a * ((a - 1) + (a + 1) * cos)
        b2 := a * ((a + 1) + (a - 1) * cos - beta)
        a0 := (a + 1) - (a - 1) * cos + beta
        a1 := 2 * ((a - 1) - (a + 1) * cos)
        a2 := (a + 1) - (a - 1) * cos - beta }

/-- `Biquad<F>` of src/lib.rs: a coefficient set plus the four history
registers. -/
structure Biquad where
  coefficients : Coefficients
  x1 : ℝ
  x2 : ℝ
  y1 : ℝ
  y2 : ℝ

/-- `Biquad::default()` (derived): zeroed coefficients and history. -/
def Biquad.default : Biquad :=
  { coefficients := Coefficients.default, x1 := 0, x2 := 0, y1 := 0, y2 := 0 }

/-- `Biquad::set` of src/lib.rs: delegates to `Coefficients::set`.  Returns
the call result together with the post-state; when the delegate fails before
writing anything the filter is unchanged. -/
noncomputable def Biquad.set (b : Biquad) (filter_type : FilterType)
    (frequency gain_db q : ℝ) : Except BiquadError Unit × Biquad :=
  match b.coefficients.set filter_type frequency gain_db q with
  | .ok c => (.ok (), { b with coefficients := c })
  | .error e => (.error e, b)

/-- `Biquad::prepare` of src/lib.rs: delegates to
`Coefficients::set_sample_rate`. -/
def Biquad.prepare (b : Biquad) (sample_rate : ℕ) :
    Except BiquadError Unit × Biquad :=
  match b.coefficients.set_sample_rate sample_rate with
  | .ok c => (.ok (), { b with coefficients := c })
  | .error e => (.error e, b)

/-- `Biquad::tick` of src/lib.rs (lines 200-213): the direct-form-I
difference equation without any division by `a0`, then the history shift
`x2 <- x1, x1 <- input, y2 <- y1, y1 <- out`. -/
def Biquad.tick (b : Biquad) (input : ℝ) : ℝ × Biquad :=
  let out := b.coefficients.b0 * input
    + b.coefficients.b1 * b.x1
    + b.coefficients.b2 * b.x2
    - b.coefficients.a1 * b.y1
    - b.coefficients.a2 * b.y2
  (out, { b with x2 := b.x1, x1 := input, y2 := b.y1, y1 := out })

/-- `Biquad::process` of src/lib.rs: `output.iter_mut().zip(input)` pairs
slots up to the shorter length, overwriting each paired output slot with
`tick` of the matching input sample; output slots beyond the shorter length
keep their previous value. -/
def Biquad.process : Biquad → List ℝ → List ℝ → List ℝ × Biquad
  | b, _, [] => ([], b)
  | b, [], output => (output, b)
  | b, i :: input, _ :: output =>
    let p := b.tick i
    let r := Biquad.process p.2 input output
    (p.1 :: r.1, r.2)

/-- `Biquad::reset` of src/lib.rs: zeroes the four history registers. -/
def Biquad.reset (b : Biquad) : Biquad :=
  { b with x1 := 0, x2 := 0, y1 := 0, y2 := 0 }

/-- `Biquad::set_coefficients` of src/lib.rs: replaces the coefficient set
wholesale (its getter `coefficients()` is the structure projection). -/
def Biquad.set_coefficients (b : Biquad) (coefficients : Coefficients) : Biquad :=
  { b with coefficients := coefficients }

/-- Helper: feeding a list of samples through `tick` one by one, collecting
the outputs and the final filter state. -/
def Biquad.ticks : Biquad → List ℝ → List ℝ × Biquad
  | b, [] => ([], b)
  | b, i :: input =>
    let p := b.tick i
    let r := Biquad.ticks p.2 input
    (p.1 :: r.1, r.2)

/-- The spec's angular frequency: `omega = 2 pi frequency / sample_rate`. -/
noncomputable def specOmega (frequency sample_rate : ℝ) : ℝ :=
  2 * Real.pi * frequency / sample_rate

/-- The spec's intermediate quantity `alpha = (sin/2) * q` (sin of omega
halved, then multiplied by q - not divided by 2q). -/
noncomputable def specAlpha (frequency sample_rate q : ℝ) : ℝ :=
  Real.sin (specOmega frequency sample_rate) / 2 * q

/-- The spec's amplitude `A = 10 ^ (gain_db / 40)`. -/
noncomputable def specAmp (gain_db : ℝ) : ℝ :=
  (10 : ℝ) ^ (gain_db / 40)

/-- The spec-side `a0` of each of the nine branches, written in terms of
`specAlpha` (so every branch exhibits the `(sin/2) * q` quantity). -/
noncomputable def specA0 (ft : FilterType) (frequency sample_rate gain_db q : ℝ) : ℝ :=
  match ft with
  | .Peak => 1 + specAlpha frequency sample_rate q / specAmp gain_db
  | .Lowshelf => (specAmp gain_db + 1)
      + (specAmp gain_db - 1) * Real.cos (specOmega frequency sample_rate)
      + 2 * Real.sqrt (specAmp gain_db) * specAlpha frequency sample_rate q
  | .Highshelf => (specAmp gain_db + 1)
      - (specAmp gain_db - 1) * Real.cos (specOmega frequency sample_rate)
      + 2 * Real.sqrt (specAmp gain_db) * specAlpha frequency sample_rate q
  | _ => 1 + specAlpha frequency sample_rate q

/-- A concrete coefficient set with sample rate 2 and zero coefficients,
used as a pre-state in witnesses. -/
def srTwo : Coefficients := Coefficients.mk 2 0 0 0 0 0 0

/-- The coefficient set produced by a lowpass design at frequency 1, gain 0,
q 1 on `srTwo`, written with the source's intermediate expressions. -/
noncomputable def lpTwo : Coefficients :=
  Coefficients.mk 2
    (1 + Real.sin (2 * Real.pi * 1 / 2) / 2 * 1)
    (-2 * Real.cos (2 * Real.pi * 1 / 2))
    (1 - Real.sin (2 * Real.pi * 1 / 2) / 2 * 1)
    ((1 - Real.cos (2 * Real.pi * 1 / 2)) / 2)
    (1 - Real.cos (2 * Real.pi * 1 / 2))
    ((1 - Real.cos (2 * Real.pi * 1 / 2)) / 2)

/-- Evaluating the design call on the concrete witness inputs. -/
theorem set_lpTwo_eq : srTwo.set .Lowpass 1 0 1 = .ok lpTwo := by
  unfold Coefficients.set
  rw [if_neg (by norm_num [srTwo]), if_neg (by norm_num [srTwo]),
    if_neg (by norm_num), if_neg (by norm_num)]
  rfl

/-- Claim C1: `tick` returns exactly
`b0*input + b1*x1 + b2*x2 - a1*y1 - a2*y2` (no division by `a0` anywhere),
and the updated state has `x2 =` old `x1`, `x1 = input`, `y2 =` old `y1`
(the old `y1`, absorbed before `y1` is overwritten), `y1 =` the returned
output, with the coefficients untouched. -/
theorem tick_contract (b : Biquad) (input : ℝ) :
    (b.tick input).1 =
      b.coefficients.b0 * input
        + b.coefficients.b1 * b.x1
        + b.coefficients.b2 * b.x2
        - b.coefficients.a1 * b.y1
        - b.coefficients.a2 * b.y2 ∧
    (b.tick input).2.x2 = b.x1 ∧
    (b.tick input).2.x1 = input ∧
    (b.tick input).2.y2 = b.y1 ∧
    (b.tick input).2.y1 = (b.tick input).1 ∧
    (b.tick input).2.coefficients = b.coefficients :=
  ⟨rfl, rfl, rfl, rfl, rfl, rfl⟩

/-- Claim C7: `reset` zeroes the four history registers and leaves the full
coefficient record (sample rate and the six coefficients) unchanged; it is a
total function with no failure mode. -/
theorem reset_contract (b : Biquad) :
    b.reset.x1 = 0 ∧ b.reset.x2 = 0 ∧ b.reset.y1 = 0 ∧ b.reset.y2 = 0 ∧
    b.reset.coefficients = b.coefficients :=
  ⟨rfl, rfl, rfl, rfl, rfl⟩

/-- Claim C2: `Coefficients::set` runs the four validation checks in the
fixed source order - `NoSampleRate` when the stored rate is zero, else
`FrequencyOverNyqist` when `2 * frequency > sample_rate`, else
`FrequencyTooLow` when `frequency < 1`, else `NegativeQ` when `q < 0` - the
earliest failing check wins, and when none fails the call succeeds (the
`Fatal` conversion error is unreachable over the reals). -/
theorem set_validation_order (c : Coefficients) (ft : FilterType) (f g q : ℝ) :
    (c.sample_rate = 0 → c.set ft f g q = .error .NoSampleRate) ∧
    (c.sample_rate ≠ 0 → 2 * f > c.sample_rate →
      c.set ft f g q = .error .FrequencyOverNyqist) ∧
    (c.sample_rate ≠ 0 → ¬ 2 * f > c.sample_rate → f < 1 →
      c.set ft f g q = .error .FrequencyTooLow) ∧
    (c.sample_rate ≠ 0 → ¬ 2 * f > c.sample_rate → ¬ f < 1 → q < 0 →
      c.set ft f g q = .error .NegativeQ) ∧
    (c.sample_rate ≠ 0 → ¬ 2 * f > c.sample_rate → ¬ f < 1 → ¬ q < 0 →
      ∃ c2, c.set ft f g q = .ok c2) := by
  refine ⟨fun h1 => ?_, fun h1 h2 => ?_, fun h1 h2 h3 => ?_,
    fun h1 h2 h3 h4 => ?_, fun h1 h2 h3 h4 => ?_⟩
  · simp only [Coefficients.set, if_pos h1]
  · simp only [Coefficients.set, if_neg h1, if_pos h2]
  · simp only [Coefficients.set, if_neg h1, if_neg h2, if_pos h3]
  · simp only [Coefficients.set, if_neg h1, if_neg h2, if_neg h3, if_pos h4]
  · simp only [Coefficients.set, if_neg h1, if_neg h2, if_neg h3, if_neg h4]
    cases ft <;> exact ⟨_, rfl⟩

/-- Witness for C2 at a concrete input: with sample rate 2 and frequency 2
both the Nyquist condition holds and the result is `FrequencyOverNyqist`. -/
theorem set_validation_order_witness :
    ((2 : ℝ) ≠ 0 ∧ 2 * (2 : ℝ) > 2) ∧
    (Coefficients.mk 2 0 0 0 0 0 0).set .Lowpass 2 0 1 =
      .error .FrequencyOverNyqist := by
  refine ⟨⟨by norm_num, by norm_num⟩, ?_⟩
  exact (set_validation_order (Coefficients.mk 2 0 0 0 0 0 0) .Lowpass 2 0 1).2.1
    (by norm_num) (by norm_num)

/-- Claim C3: on every successful design call the intermediate `alpha`
feeding all nine branches is `sin(omega) / 2 * q` (sin halved then multiplied
by q, not divided by 2q), observed here through the stored `a0`, which
contains `alpha` in every branch. -/
theorem alpha_is_sin_half_times_q (c : Coefficients) (ft : FilterType)
    (f g q : ℝ) (c2 : Coefficients) (h : c.set ft f g q = .ok c2) :
    c2.a0 = specA0 ft f c.sample_rate g q := by
  unfold Coefficients.set at h
  split_ifs at h
  cases ft <;> (injection h with h2; subst h2; rfl)

/-- Witness for C3 at a concrete input: the lowpass design on `srTwo`
succeeds and stores `a0 = 1 + alpha` with `alpha = sin(omega)/2 * q`. -/
theorem alpha_is_sin_half_times_q_witness :
    srTwo.set .Lowpass 1 0 1 = .ok lpTwo ∧
    lpTwo.a0 = specA0 .Lowpass 1 srTwo.sample_rate 0 1 :=
  ⟨set_lpTwo_eq,
    alpha_is_sin_half_times_q srTwo .Lowpass 1 0 1 lpTwo set_lpTwo_eq⟩

/-- Claim C4: a successful lowpass design stores exactly
`b0 = (1 - cos)/2, b1 = 1 - cos, b2 = (1 - cos)/2, a0 = 1 + alpha,
a1 = -2 cos, a2 = 1 - alpha`; `a0` is kept as computed (not forced to 1)
and the sample rate is untouched. -/
theorem lowpass_design_coefficients (c : Coefficients) (f g q : ℝ)
    (c2 : Coefficients) (h : c.set .Lowpass f g q = .ok c2) :
    c2.b0 = (1 - Real.cos (specOmega f c.sample_rate)) / 2 ∧
    c2.b1 = 1 - Real.cos (specOmega f c.sample_rate) ∧
    c2.b2 = (1 - Real.cos (specOmega f c.sample_rate)) / 2 ∧
    c2.a0 = 1 + specAlpha f c.sample_rate q ∧
    c2.a1 = -2 * Real.cos (specOmega f c.sample_rate) ∧
    c2.a2 = 1 - specAlpha f c.sample_rate q ∧
    c2.sample_rate = c.sample_rate := by
  unfold Coefficients.set at h
  split_ifs at h
  injection h with h2
  subst h2
  exact ⟨rfl, rfl, rfl, rfl, rfl, rfl, rfl⟩

/-- Witness for C4 at a concrete input: the lowpass design on `srTwo`
succeeds and the stored record satisfies all six coefficient equations. -/
theorem lowpass_design_coefficients_witness :
    srTwo.set .Lowpass 1 0 1 = .ok lpTwo ∧
    (lpTwo.b0 = (1 - Real.cos (specOmega 1 srTwo.sample_rate)) / 2 ∧
      lpTwo.b1 = 1 - Real.cos (specOmega 1 srTwo.sample_rate) ∧
      lpTwo.b2 = (1 - Real.cos (specOmega 1 srTwo.sample_rate)) / 2 ∧
      lpTwo.a0 = 1 + specAlpha 1 srTwo.sample_rate 1 ∧
      lpTwo.a1 = -2 * Real.cos (specOmega 1 srTwo.sample_rate) ∧
      lpTwo.a2 = 1 - specAlpha 1 srTwo.sample_rate 1 ∧
      lpTwo.sample_rate = srTwo.sample_rate) :=
  ⟨set_lpTwo_eq,
    lowpass_design_coefficients srTwo 1 0 1 lpTwo set_lpTwo_eq⟩

/-- Claim C5: a `design` call (`Biquad::set`), successful or failing, leaves
the four history registers unchanged. -/
theorem set_preserves_history (b : Biquad) (ft : FilterType) (f g q : ℝ) :
    (b.set ft f g q).2.x1 = b.x1 ∧ (b.set ft f g q).2.x2 = b.x2 ∧
    (b.set ft f g q).2.y1 = b.y1 ∧ (b.set ft f g q).2.y2 = b.y2 := by
  unfold Biquad.set
  cases b.coefficients.set ft f g q <;> exact ⟨rfl, rfl, rfl, rfl⟩

/-- Claim C6: `process` overwrites exactly the first `min` (input length,
output length) output slots with the sequential `tick` outputs of the
corresponding inputs, keeps the remaining output slots, never fails, and on
a pair of empty sequences changes neither the output nor the filter. -/
theorem process_contract (b : Biquad) (input output : List ℝ) :
    b.process input output =
      ((b.ticks (input.take output.length)).1 ++ output.drop input.length,
        (b.ticks (input.take output.length)).2) ∧
    b.process [] [] = ([], b) := by
  refine ⟨?_, rfl⟩
  induction input generalizing b output with
  | nil => cases output <;> simp [Biquad.process, Biquad.ticks]
  | cons i is ih =>
    cases output with
    | nil => simp [Biquad.process, Biquad.ticks]
    | cons o os => simp [Biquad.process, Biquad.ticks, ih]

/-- Claim C8: a freshly constructed (`Default`) filter stores sample rate
zero, so `design` with any filter type and any parameters fails with
`NoSampleRate`. -/
theorem default_design_no_sample_rate :
    Biquad.default.coefficients.sample_rate = 0 ∧
    ∀ (ft : FilterType) (f g q : ℝ),
      (Biquad.default.set ft f g q).1 = .error .NoSampleRate := by
  refine ⟨rfl, fun ft f g q => ?_⟩
  simp [Biquad.set, Coefficients.set, Biquad.default, Coefficients.default]

/-- Claim C10: whenever `Coefficients::set` (reached through `Biquad::set`)
returns a validation error, the whole coefficient record - the six
coefficients and the sample rate - keeps its prior value, because every
check precedes every write. -/
theorem set_error_preserves_coefficients (b : Biquad) (ft : FilterType)
    (f g q : ℝ) (e : BiquadError) (h : (b.set ft f g q).1 = .error e) :
    (b.set ft f g q).2.coefficients = b.coefficients := by
  unfold Biquad.set at h ⊢
  revert h
  cases b.coefficients.set ft f g q with
  | ok c => intro h; exact absurd h (by simp)
  | error e2 => intro h; rfl

/-- Witness for C10 at a concrete input: the default filter rejects a design
call with `NoSampleRate` and its coefficients are untouched. -/
theorem set_error_preserves_coefficients_witness :
    (Biquad.default.set .Lowpass 100 0 1).1 = .error .NoSampleRate ∧
    (Biquad.default.set .Lowpass 100 0 1).2.coefficients =
      Biquad.default.coefficients := by
  have h : (Biquad.default.set .Lowpass 100 0 1).1 = .error .NoSampleRate := by
    simp [Biquad.set, Coefficients.set, Biquad.default, Coefficients.default]
  exact ⟨h, set_error_preserves_coefficients Biquad.default .Lowpass 100 0 1
    .NoSampleRate h⟩

/-- Claim C9: re-injecting the filter's own coefficient set via
`set_coefficients (coefficients ())` leaves every subsequent sequence of
`tick` calls (outputs and final state) unchanged. -/
theorem coefficients_roundtrip (b : Biquad) (input : List ℝ) :
    (b.set_coefficients b.coefficients).ticks input = b.ticks input :=
  rfl

end BiquadFilter
